import Mathlib
/-!
Verification of the staged answer-assembly pipeline and content-normalization
layer of the alphaopt demo frontend.

The JavaScript source is shallowly embedded: strings are `List Char`,
JavaScript string replacement/regex scanning is implemented by explicit
left-to-right scans with the same match semantics as the source regexes,
nullable fields are `Option`, and the fetch-driven pipeline is a pure
function from the four stage responses to the sequence of progress payloads
and the final result.

Embedded functions (from `src/components/Message.js` and
`src/components/ChatInterface.js`):
`isMathyLine`, `toLatex`, `hasUnbalancedDelimiters`, `hasUnbalancedBraces`,
`shouldFallbackToPlain`, `renderLatexBlock`, `renderFormulationString`
(per-line rendering), `transformTaxonomy`, `callSolverAPI`,
`loadDefaultAnswer`, `handleSendMessage`, `handleRegenerate`.
-/
set_option maxRecDepth 10000
set_option synthInstance.maxHeartbeats 400000
set_option maxHeartbeats 1000000
/-- Strings are modelled as lists of characters. -/
abbrev Str := List Char
/-- JavaScript whitespace (the `\s` character class, also used by
`String.prototype.trim`): space, tab, line terminators and the Unicode
space separators. -/
def isSpaceJS (c : Char) : Bool :=
  c = ' ' || c = '\t' || c = '\n' || c = '\x0b' || c = '\x0c' || c = '\r' ||
  c = '\u00A0' || c = '\u1680' ||
  ('\u2000' ≤ c && c ≤ '\u200A') ||
  c = '\u2028' || c = '\u2029' || c = '\u202F' || c = '\u205F' ||
  c = '\u3000' || c = '\uFEFF'
/-- ASCII letter, the `[A-Za-z]` character class. -/
def isAsciiLetter (c : Char) : Bool :=
  ('A' ≤ c && c ≤ 'Z') || ('a' ≤ c && c ≤ 'z')
/-- ASCII case folding; `String.prototype.toLowerCase` restricted to the
ASCII range actually exercised by the category names. -/
def toLowerChar (c : Char) : Char :=
  if 'A' ≤ c && c ≤ 'Z' then Char.ofNat (c.toNat + 32) else c
/-- `String.prototype.trim`: strip leading and trailing whitespace. -/
def trimJS (t : Str) : Str :=
  ((t.dropWhile isSpaceJS).reverse.dropWhile isSpaceJS).reverse
/-- Substring test: does `pat` occur (contiguously) in `t`?  The empty
pattern occurs in every string, matching regex semantics for an empty
alternative. -/
def listInfix (pat : Str) : Str → Bool
  | [] => pat.isEmpty
  | c :: rest => pat.isPrefixOf (c :: rest) || listInfix pat rest
/-- Case-insensitive substring test (the `/i` regex flag). -/
def containsCI (t pat : Str) : Bool :=
  listInfix (pat.map toLowerChar) (t.map toLowerChar)
/-! ### `isMathyLine` (Message.js lines 69-73)

The source tests the regex literal
`/[≤≥=∑∀∈×]|\\bminimize\\b|\\bmaximize\\b|\\bsubject to\\b|\\bx\[|\\bc\[|\\bu\[|\\|N\\|/i`.
Inside a regex literal `\\` matches one literal backslash character, so the
keyword alternatives match the literal texts `\bminimize\b` etc. (not
word-bounded keywords), and the final `\\|N\\|` parses as the three
alternatives `\`, `N\` and the empty string: the trailing `|` introduces an
empty alternative, which matches everywhere. -/
/-- The character-class alternative `[≤≥=∑∀∈×]`. -/
def mathClassChars : Str := ['≤', '≥', '=', '∑', '∀', '∈', '×']
/-- Faithful translation of the `mathTokens` regex test. -/
def mathTokensTest (t : Str) : Bool :=
  t.any (fun c => mathClassChars.contains c)
  || containsCI t "\\bminimize\\b".toList
  || containsCI t "\\bmaximize\\b".toList
  || containsCI t "\\bsubject to\\b".toList
  || containsCI t "\\bx[".toList
  || containsCI t "\\bc[".toList
  || containsCI t "\\bu[".toList
  || containsCI t "\\".toList
  || containsCI t "N\\".toList
  || listInfix [] t
/-- `isMathyLine(text)`: falsy text is not mathy, otherwise the regex test. -/
def isMathyLine (t : Str) : Bool :=
  if t.isEmpty then false else mathTokensTest t
/-! ### `toLatex` (Message.js lines 75-93) -/
/-- `t.replace(/c/g, rep)` for a single character `c`. -/
def replaceAllChar (c : Char) (rep : Str) : Str → Str
  | [] => []
  | x :: xs =>
    if x = c then rep ++ replaceAllChar c rep xs
    else x :: replaceAllChar c rep xs
/-- Nonempty `takeWhile`: `p+` in a regex.  Returns the (maximal, nonempty)
matched run and the rest; regex backtracking cannot shorten the run here
because each use is followed by a character the class excludes. -/
def takeWhile1 (p : Char → Bool) (t : Str) : Option (Str × Str) :=
  match t with
  | [] => none
  | c :: rest =>
    if p c then some (c :: rest.takeWhile p, rest.dropWhile p) else none
/-- Match `([A-Za-z]+)\[([^\]]+)\]` at the head of `t`; on success return
the name, the index text, and the rest of the input. -/
def matchSingleIdx (t : Str) : Option (Str × Str × Str) :=
  match takeWhile1 isAsciiLetter t with
  | some (name, '[' :: r2) =>
    match takeWhile1 (fun c => !(c = ']')) r2 with
    | some (idx, ']' :: r4) => some (name, idx, r4)
    | _ => none
  | _ => none
/-- Match `([A-Za-z]+)\[([^\]]+)\]\[([^\]]+)\]` at the head of `t`. -/
def matchDoubleIdx (t : Str) : Option (Str × Str × Str × Str) :=
  match matchSingleIdx t with
  | some (name, i, '[' :: r2) =>
    match takeWhile1 (fun c => !(c = ']')) r2 with
    | some (j, ']' :: r4) => some (name, i, j, r4)
    | _ => none
  | _ => none
/-! The left-to-right replace/count scans below recurse on a suffix
computed by the matcher, so they are written with a fuel parameter (the
input length always suffices, since each step consumes at least one
character); this keeps them structurally recursive and hence computable by
kernel reduction. -/
/-- `t.replace(/([A-Za-z]+)\[([^\]]+)\]\[([^\]]+)\]/g, '$1_{$2,$3}')`. -/
def replaceDoubleIdxF : Nat → Str → Str
  | _, [] => []
  | 0, t => t
  | fuel + 1, c :: rest =>
    match matchDoubleIdx (c :: rest) with
    | some (name, i, j, r) =>
      name ++ '_' :: '\x7b' :: (i ++ ',' :: j) ++ '\x7d' :: replaceDoubleIdxF fuel r
    | none => c :: replaceDoubleIdxF fuel rest
def replaceDoubleIdx (t : Str) : Str := replaceDoubleIdxF t.length t
/-- `t.replace(/([A-Za-z]+)\[([^\]]+)\]/g, '$1_{$2}')`. -/
def replaceSingleIdxF : Nat → Str → Str
  | _, [] => []
  | 0, t => t
  | fuel + 1, c :: rest =>
    match matchSingleIdx (c :: rest) with
    | some (name, i, r) =>
      name ++ '_' :: '\x7b' :: i ++ '\x7d' :: replaceSingleIdxF fuel r
    | none => c :: replaceSingleIdxF fuel rest
def replaceSingleIdx (t : Str) : Str := replaceSingleIdxF t.length t
/-- `t.replace(/\s\*\s/g, ' \\cdot ')`: an asterisk with whitespace on both
sides; scanning resumes after the trailing whitespace of a match. -/
def replaceStarSpaced : Str → Str
  | [] => []
  | [a] => [a]
  | [a, b] => [a, b]
  | a :: b :: c :: rest =>
    if isSpaceJS a && b = '*' && isSpaceJS c then
      " \\cdot ".toList ++ replaceStarSpaced rest
    else a :: replaceStarSpaced (b :: c :: rest)
/-- `toLatex` (Message.js lines 75-93): Unicode math symbols to LaTeX, then
bracket indices, then isolated asterisks. -/
def toLatex (text : Str) : Str :=
  if text.isEmpty then []
  else
    let t := replaceAllChar '≤' " \\le ".toList text
    let t := replaceAllChar '≥' " \\ge ".toList t
    let t := replaceAllChar '∑' " \\sum ".toList t
    let t := replaceAllChar '∀' " \\forall ".toList t
    let t := replaceAllChar '∈' " \\in ".toList t
    let t := replaceAllChar 'ℝ' " \\mathbb\x7bR\x7d ".toList t
    let t := replaceAllChar 'ℤ' " \\mathbb\x7bZ\x7d ".toList t
    let t := replaceAllChar '×' " \\cdot ".toList t
    let t := replaceDoubleIdx t
    let t := replaceSingleIdx t
    replaceStarSpaced t
/-! ### `hasUnbalancedDelimiters` / `hasUnbalancedBraces`
(Message.js lines 95-131) -/
/-- Number of matches of a two-character pattern `/ab/g`
(non-overlapping left-to-right scan). -/
def countSeq2 (a b : Char) : Str → Nat
  | [] => 0
  | [_] => 0
  | x :: y :: rest =>
    if x = a && y = b then countSeq2 a b rest + 1
    else countSeq2 a b (y :: rest)
/-- Number of matches of `/\$\$/g`. -/
def countDollarDollar (t : Str) : Nat := countSeq2 '$' '$' t
/-- Split after the first occurrence of `$$`; `none` if there is none. -/
def splitAtDD : Str → Option Str
  | [] => none
  | [_] => none
  | a :: b :: rest =>
    if a = '$' && b = '$' then some rest else splitAtDD (b :: rest)
/-- `t.replace(/\$\$[\s\S]*?\$\$/g, '')`: remove each lazily-closed
`$$ … $$` span; an opening `$$` with no later `$$` is kept (and then no
further match can start inside it, since no adjacent `$$` remains). -/
def removeDDSpansF : Nat → Str → Str
  | _, [] => []
  | 0, t => t
  | _ + 1, [c] => [c]
  | fuel + 1, a :: b :: rest =>
    if a = '$' && b = '$' then
      match splitAtDD rest with
      | some after => removeDDSpansF fuel after
      | none => a :: b :: rest
    else a :: removeDDSpansF fuel (b :: rest)
def removeDDSpans (t : Str) : Str := removeDDSpansF t.length t
/-- Count of unescaped `$` characters: a `$` is escaped when the previous
character is a backslash (Message.js lines 101-107). -/
def countSinglesAux (prev : Option Char) : Str → Nat
  | [] => 0
  | c :: rest =>
    (if c = '$' && !(prev = some '\\') then 1 else 0) + countSinglesAux (some c) rest
def countSingles (t : Str) : Nat := countSinglesAux none t
/-- Match a literal character sequence at the head of the input. -/
def dropLit : Str → Str → Option Str
  | [], t => some t
  | _ :: _, [] => none
  | p :: ps, c :: rest => if c = p then dropLit ps rest else none
/-- Match `kw` (e.g. `\begin{`) followed by `[^}]+` then `}` at the head of
the input; on success return the rest. -/
def matchEnv (kw : Str) (t : Str) : Option Str :=
  match dropLit kw t with
  | none => none
  | some r1 =>
    match takeWhile1 (fun c => !(c = '\x7d')) r1 with
    | some (_, '\x7d' :: r3) => some r3
    | _ => none
/-- Number of matches of `/\\begin\{[^}]+\}/g` (or the `\end` variant). -/
def countEnvTokensF (fuel : Nat) (kw : Str) (t : Str) : Nat :=
  match fuel, t with
  | _, [] => 0
  | 0, _ => 0
  | fuel + 1, c :: rest =>
    match matchEnv kw (c :: rest) with
    | some after => countEnvTokensF fuel kw after + 1
    | none => countEnvTokensF fuel kw rest
def countEnvTokens (kw : Str) (t : Str) : Nat := countEnvTokensF t.length kw t
/-- The literal `\begin{` (written as an explicit character list). -/
def beginKw : Str := ['\\', 'b', 'e', 'g', 'i', 'n', '\x7b']
/-- The literal `\end{` (written as an explicit character list). -/
def endKw : Str := ['\\', 'e', 'n', 'd', '\x7b']
/-- `hasUnbalancedDelimiters` (Message.js lines 95-119). -/
def hasUnbalancedDelimiters (t : Str) : Bool :=
  if t.isEmpty then false
  else if !(countDollarDollar t % 2 = 0) then true
  else
    let tNoDD := removeDDSpans t
    if !(countSingles tNoDD % 2 = 0) then true
    else if !(countSeq2 '\\' '[' t = countSeq2 '\\' ']' t) then true
    else if !(countSeq2 '\\' '(' t = countSeq2 '\\' ')' t) then true
    else if !(countEnvTokens beginKw t = countEnvTokens endKw t) then true
    else false
/-- `hasUnbalancedBraces` (Message.js lines 121-131): running brace balance;
a negative prefix balance or a nonzero final balance is unbalanced. -/
def hasUnbalancedBracesAux (balance : Int) : Str → Bool
  | [] => !(balance = 0)
  | c :: rest =>
    let balance' : Int :=
      if c = '\x7b' then balance + 1
      else if c = '\x7d' then balance - 1 else balance
    if balance' < 0 then true else hasUnbalancedBracesAux balance' rest
def hasUnbalancedBraces (t : Str) : Bool :=
  if t.isEmpty then false else hasUnbalancedBracesAux 0 t
/-- `shouldFallbackToPlain` (Message.js lines 133-139). -/
def shouldFallbackToPlain (t : Str) (strict : Bool) : Bool :=
  if t.isEmpty then false
  else if strict then hasUnbalancedDelimiters t || hasUnbalancedBraces t
  else hasUnbalancedDelimiters t
/-! ### Trailing-comment split and per-line rendering
(Message.js lines 141-174) -/
/-- After at least zero further whitespace characters, a `#`; returns the
text after the `#`. -/
def afterWsHash : Str → Option Str
  | [] => none
  | c :: r =>
    if c = '#' then some r
    else if isSpaceJS c then afterWsHash r else none
/-- `\s+#`: one whitespace character, then `afterWsHash`. -/
def wsThenHash : Str → Option Str
  | [] => none
  | c :: r => if isSpaceJS c then afterWsHash r else none
/-- The split of `line.match(/^(.*?)(?:\s+#\s*(.*))?$/)` into the math part
(group 1) and the comment part (group 2, `''` when absent): the lazy prefix
ends at the leftmost whitespace run that is immediately followed by `#`;
the comment is the rest with its leading whitespace stripped.  (Lines here
come from a split on `\n` and are assumed free of other line
terminators.) -/
def splitComment : Str → Str × Str
  | [] => ([], [])
  | c :: rest =>
    match wsThenHash (c :: rest) with
    | some afterHash => ([], afterHash.dropWhile isSpaceJS)
    | none =>
      let (m, cm) := splitComment rest
      (c :: m, cm)
/-- `#` → `\#` (`.replace(/#/g, '\\#')`). -/
def escapeHash (t : Str) : Str := replaceAllChar '#' "\\#".toList t
/-- One rendered line of `renderFormulationString`: a spacer for blank
lines, a MathJax display block (the exact string handed to MathJax,
including the unconditional `\[ … \]` wrapper) plus the trailing comment
for mathy lines, or a plain Markdown line. -/
inductive LineRender where
  | spacer : LineRender
  | math : Str → Str → LineRender
  | plain : Str → LineRender
deriving DecidableEq, Repr
/-- Per-line rendering (Message.js lines 146-171). -/
def renderLine (line : Str) : LineRender :=
  if (trimJS line).isEmpty then .spacer
  else
    let (mathPart, commentPart) := splitComment line
    if isMathyLine mathPart then
      .math ("\\[ ".toList ++ escapeHash (toLatex mathPart) ++ " \\]".toList)
        commentPart
    else .plain line
/-- `text.split(/\n/)`. -/
def splitLines : Str → List Str
  | [] => [[]]
  | '\n' :: rest => [] :: splitLines rest
  | c :: rest =>
    match splitLines rest with
    | l :: ls => (c :: l) :: ls
    | [] => [[c]]
/-- `renderFormulationString` (Message.js lines 141-174): `none` for falsy
text, otherwise the rendering of each line. -/
def renderFormulationString (t : Str) : Option (List LineRender) :=
  if t.isEmpty then none else some ((splitLines t).map renderLine)
/-! ### `renderLatexBlock` (Message.js lines 55-67) -/
/-- Drop characters up to (excluding) the next line terminator, where `$`
in a multiline regex stops. -/
def dropToLineEnd : Str → Str
  | [] => []
  | c :: rest =>
    if c = '\n' || c = '\r' || c = '\u2028' || c = '\u2029' then c :: rest
    else dropToLineEnd rest
/-- `s.replace(/\s+#.*$/gm, '')`: each whitespace run (which may include
line terminators) immediately followed by `#` is removed together with the
rest of that line. -/
def stripMathCommentsF : Nat → Str → Str
  | _, [] => []
  | 0, t => t
  | fuel + 1, c :: rest =>
    match wsThenHash (c :: rest) with
    | some afterHash => stripMathCommentsF fuel (dropToLineEnd afterHash)
    | none => c :: stripMathCommentsF fuel rest
def stripMathComments (t : Str) : Str := stripMathCommentsF t.length t
/-- The delimiter-presence test of `renderLatexBlock`:
`/\\\[|\\\]|\\\(|\\\)|\$\$|\$|\\begin\{|\\end\{/.test(cleaned)`. -/
def hasDelimitersTest (t : Str) : Bool :=
  listInfix "\\[".toList t || listInfix "\\]".toList t ||
  listInfix "\\(".toList t || listInfix "\\)".toList t ||
  listInfix "$$".toList t || listInfix "$".toList t ||
  listInfix "\\begin\x7b".toList t || listInfix "\\end\x7b".toList t
/-- `renderLatexBlock` (Message.js lines 55-67): the string handed to
MathJax (`none` for falsy input, which renders nothing). -/
def renderLatexBlock (text : Str) : Option Str :=
  if text.isEmpty then none
  else
    let cleaned := replaceAllChar '#' "\\#".toList (stripMathComments text)
    let hasDelims := hasDelimitersTest cleaned
    let body := replaceAllChar '\n' " \\\\ ".toList cleaned
    some (if hasDelims then body else "\\[ ".toList ++ body ++ " \\]".toList)
/-! ### `transformTaxonomy` (ChatInterface.js lines 274-291)

A raw taxonomy is either a plain string or a nested object whose values are
nested objects, arrays of leaf names, or other (string) values.  The source
iterates the entries in order: it recurses into the first object value,
terminates on the first array value, and skips entries with other values;
if the loop exhausts the entries it joins the accumulated path. -/
inductive TaxoVal where
  | node : List (Str × TaxoVal) → TaxoVal
  | leaves : List Str → TaxoVal
  | strVal : Str → TaxoVal
inductive TaxoInput where
  | str : Str → TaxoInput
  | obj : List (Str × TaxoVal) → TaxoInput
/-- `segments.join(' > ')`. -/
def joinSegs : List Str → Str
  | [] => []
  | [s] => s
  | s :: rest => s ++ " > ".toList ++ joinSegs rest
/-- `flattenTaxonomy(obj, path)` (ChatInterface.js lines 279-288). -/
def flattenTaxonomy : List (Str × TaxoVal) → List Str → Str
  | [], path => joinSegs (path.drop 1)
  | (k, v) :: rest, path =>
    match v with
    | .node entries => flattenTaxonomy entries (path ++ [k])
    | .leaves names => joinSegs (((path ++ [k]) ++ names).drop 1)
    | .strVal _ => flattenTaxonomy rest path
termination_by l _ => sizeOf l
/-- `transformTaxonomy` (ChatInterface.js lines 275-291). -/
def transformTaxonomy : TaxoInput → Str
  | .str s => s
  | .obj entries => flattenTaxonomy entries []
/-! ### Data model (ChatInterface.js) -/
/-- An insight record as returned by the insights stage: its `taxonomy` is
still the raw nested mapping. -/
structure RawInsight where
  category : Str
  taxonomy : TaxoInput
  explanation : Str
  condition : Str
  exampleText : Str
/-- An insight after the frontend transformation: lowercased category and
flattened taxonomy path. -/
structure Insight where
  category : Str
  taxonomy : Str
  explanation : Str
  condition : Str
  exampleText : Str
deriving DecidableEq
/-- A formulation is either plain text or a structured object. -/
inductive FormContent where
  | text : Str → FormContent
  | structured : (objective : Str) → (constraints : List Str) →
      (vars : Str) → FormContent
deriving DecidableEq
/-- A solution is either plain text or a structured object. -/
inductive SolContent where
  | text : Str → SolContent
  | structured : (status : Str) → (vars : List (Str × Str)) →
      (objective : Str) → (details : Str) → SolContent
deriving DecidableEq
/-- The four-stage result object built up by a pipeline run.  Each stage
field is `null` until its stage arrives; `source` is absent (`none`) in the
pending and error contents, `'api'` for remote runs and `'default'` for
canned playback. -/
structure StageBundle where
  insights : Option (List Insight)
  formulation : Option FormContent
  code : Option Str
  solution : Option SolContent
  source : Option Str
deriving DecidableEq
def apiSourceTag : Str := "api".toList
def defaultSourceTag : Str := "default".toList
/-- A failed stage fetch: non-ok HTTP status (`throw new Error(...)` on
`!response.ok`) or a transport error. -/
inductive StageErr where
  | httpError : Nat → StageErr
  | transportError : Str → StageErr
deriving DecidableEq
/-- The outcomes of the four stage requests of one remote pipeline run. -/
structure StageResponses where
  insightsResp : Except StageErr (List RawInsight)
  formulationResp : Except StageErr FormContent
  codeResp : Except StageErr Str
  solutionResp : Except StageErr SolContent
/-- The per-insight transformation applied when insights arrive
(ChatInterface.js lines 370-374): spread, lowercase the category, flatten
the taxonomy. -/
def transformInsight (i : RawInsight) : Insight :=
  { category := i.category.map toLowerChar
    taxonomy := transformTaxonomy i.taxonomy
    explanation := i.explanation
    condition := i.condition
    exampleText := i.exampleText }
/-- `callSolverAPI` (ChatInterface.js lines 344-435) as a pure function of
the stage responses: returns the list of `onProgress` payloads (snapshots
of `result`, in order) and the final outcome.  The stages run strictly
sequentially; the first failure throws, so later responses are never
inspected. -/
def callSolverAPI (rs : StageResponses) :
    List StageBundle × Except StageErr StageBundle :=
  let b0 : StageBundle :=
    { insights := none, formulation := none, code := none, solution := none
      source := some apiSourceTag }
  match rs.insightsResp with
  | .error e => ([], .error e)
  | .ok ins =>
    let b1 := { b0 with insights := some (ins.map transformInsight) }
    match rs.formulationResp with
    | .error e => ([b1], .error e)
    | .ok f =>
      let b2 := { b1 with formulation := some f }
      match rs.codeResp with
      | .error e => ([b1, b2], .error e)
      | .ok c =>
        let b3 := { b2 with code := some c }
        match rs.solutionResp with
        | .error e => ([b1, b2, b3], .error e)
        | .ok s =>
          let b4 := { b3 with solution := some s }
          ([b1, b2, b3, b4], .ok b4)
/-- A canned per-problem answer record from `default_answers.json`. -/
structure CannedAnswer where
  insights : List RawInsight
  formulation : FormContent
  code : Str
  solution : SolContent
/-- `loadDefaultAnswer` (ChatInterface.js lines 293-342) as a pure function
of the looked-up record (`none` models a missing key, which throws).  The
four fields are revealed one by one (the 3-second pacing is timing only and
is not modelled). -/
def loadDefaultAnswer (record : Option CannedAnswer) :
    List StageBundle × Except StageErr StageBundle :=
  match record with
  | none =>
    ([], .error (.transportError "No default answer found for this problem".toList))
  | some a =>
    let b0 : StageBundle :=
      { insights := none, formulation := none, code := none, solution := none
        source := some defaultSourceTag }
    let b1 := { b0 with insights := some (a.insights.map transformInsight) }
    let b2 := { b1 with formulation := some a.formulation }
    let b3 := { b2 with code := some a.code }
    let b4 := { b3 with solution := some a.solution }
    ([b1, b2, b3, b4], .ok b4)
/-! ### SessionOrchestrator (ChatInterface.js lines 437-584)

Conversation entries carry an id and timestamp in the source; the id's only
role is to address the in-flight assistant entry in the `setMessages` map
updates, so entries are modelled by their type and content and those
updates by replacement of the (uniquely identified) last-appended assistant
entry. -/
inductive Entry where
  | user : Str → Entry
  | assistant : StageBundle → Entry
deriving DecidableEq
structure ChatState where
  messages : List Entry
  input : Str
  originalQuestion : Str
deriving DecidableEq
structure Problem where
  id : Nat
  title : Str
  description : Str
/-- Which run a handler starts: canned playback of a problem id, or a
remote run with the given problem text and regenerate flag. -/
inductive RunStart where
  | defaultRun : Nat → RunStart
  | apiRun : Str → Bool → RunStart
deriving DecidableEq
/-- The initial assistant content `{insights: null, formulation: null,
code: null, solution: null}` (no `source` field). -/
def pendingBundle : StageBundle :=
  { insights := none, formulation := none, code := none, solution := none
    source := none }
/-- The error content installed by the `catch` blocks (ChatInterface.js
lines 495-512 and 563-580). -/
def errorBundle : StageBundle :=
  { insights := some []
    formulation := some (.text "Error".toList)
    code := some []
    solution := some (.structured "Error".toList [] []
      ("Failed to connect to the solver API. " ++
       "Please make sure the backend server is running.").toList)
    source := none }
/-- `const textToSend = messageText || input.trim()`: a falsy (absent or
empty) argument falls back to the trimmed input field; a non-empty argument
is used as-is, untrimmed. -/
def effectiveText (messageText : Option Str) (input : Str) : Str :=
  match messageText with
  | some t => if t.isEmpty then trimJS input else t
  | none => trimJS input
/-- `initialProblem && initialProblem.id === 1`: the canned-answer branch
condition. -/
def usesDefaultAnswer : Option Problem → Bool
  | some p => p.id = 1
  | none => false
/-- The synchronous phase of `handleSendMessage` (ChatInterface.js lines
437-469): no-op on empty effective text; otherwise store the original
question, append the user entry and the pending assistant entry, clear the
input, and start one run. -/
def sendMessageSync (st : ChatState) (messageText : Option Str)
    (initialProblem : Option Problem) : ChatState × Option RunStart :=
  let t := effectiveText messageText st.input
  if t.isEmpty then (st, none)
  else
    ({ messages := st.messages ++ [.user t, .assistant pendingBundle]
       input := []
       originalQuestion := t },
     some (if usesDefaultAnswer initialProblem then .defaultRun 1
           else .apiRun t false))
/-- A `setMessages(prev => prev.map(msg => msg.id === assistantMessageId
? {...msg, content} : msg))` update: the tracked id is the last-appended
assistant entry's. -/
def setLastContent (ms : List Entry) (c : StageBundle) : List Entry :=
  ms.dropLast ++ [.assistant c]
/-- `handleSendMessage` run to completion (remote or canned), with the
stage responses (resp. the canned record) supplied as parameters: the
progress callbacks update the in-flight assistant entry in order, and a
failure replaces its content with `errorBundle`. -/
def runSendMessage (st : ChatState) (messageText : Option Str)
    (initialProblem : Option Problem) (record : Option CannedAnswer)
    (rs : StageResponses) : ChatState :=
  match sendMessageSync st messageText initialProblem with
  | (st1, none) => st1
  | (st1, some (.defaultRun _)) =>
    let (progress, res) := loadDefaultAnswer record
    let ms1 := progress.foldl setLastContent st1.messages
    let ms2 := match res with
      | .ok _ => ms1
      | .error _ => setLastContent ms1 errorBundle
    { st1 with messages := ms2 }
  | (st1, some (.apiRun _ _)) =>
    let (progress, res) := callSolverAPI rs
    let ms1 := progress.foldl setLastContent st1.messages
    let ms2 := match res with
      | .ok _ => ms1
      | .error _ => setLastContent ms1 errorBundle
    { st1 with messages := ms2 }
/-- The synchronous phase of `handleRegenerate` (ChatInterface.js lines
518-559): drop the last entry (`prev.slice(0, -1)`), append a fresh pending
assistant entry, and start one run with the stored original question (the
input field is not read). -/
def regenerateSync (st : ChatState) (initialProblem : Option Problem) :
    ChatState × RunStart :=
  ({ st with messages := st.messages.dropLast ++ [.assistant pendingBundle] },
   if usesDefaultAnswer initialProblem then .defaultRun 1
   else .apiRun st.originalQuestion true)
/-! ### Formulation rendering (Message.js lines 200-251) -/
/-- How one structured-formulation field (objective, a constraint, or the
variables block) is rendered. -/
inductive FieldView where
  | raw : Str → FieldView
  | latex : Str → FieldView
  | blank : FieldView
deriving DecidableEq
/-- Message.js lines 219-223 (and the analogous constraint/variables
cases): non-`'default'` sources render the raw text; `'default'` sources
pass the safety gate and then `renderLatexBlock`. -/
def renderField (source : Option Str) (text : Str) : FieldView :=
  if !(source = some defaultSourceTag) then .raw text
  else if shouldFallbackToPlain text false then .raw text
  else
    match renderLatexBlock text with
    | some w => .latex w
    | none => .blank
/-- How the Mathematical Formulation section is rendered. -/
inductive FormulationView where
  | loading : FormulationView
  | emptyText : FormulationView
  | rawString : Str → FormulationView
  | sanitized : List LineRender → FormulationView
  | structuredView : FieldView → List FieldView → FieldView → FormulationView
deriving DecidableEq
/-- Message.js lines 205-250: the formulation section.  A string
formulation from a non-`'default'` source is rendered verbatim; from the
`'default'` source it passes the safety gate and is line-rendered; a
structured formulation renders each field via `renderField`. -/
def renderFormulation (source : Option Str) :
    Option FormContent → FormulationView
  | none => .loading
  | some (.text f) =>
    if f.isEmpty then .emptyText
    else if !(source = some defaultSourceTag) then .rawString f
    else if shouldFallbackToPlain f false then .rawString f
    else .sanitized ((splitLines f).map renderLine)
  | some (.structured o cs v) =>
    .structuredView (renderField source o) (cs.map (renderField source))
      (renderField source v)
/-! ### Predicates and fixtures used by the verification theorems -/
/-- Payload monotonicity: no stage field reverts from non-null to null
(indeed, a filled field keeps its value). -/
def bundleLE (a b : StageBundle) : Prop :=
  (a.insights.isSome → b.insights = a.insights) ∧
  (a.formulation.isSome → b.formulation = a.formulation) ∧
  (a.code.isSome → b.code = a.code) ∧
  (a.solution.isSome → b.solution = a.solution)
/-- Fixed fill order: a later stage field is never non-null while an
earlier one is still null. -/
def stageOrderOK (b : StageBundle) : Prop :=
  (b.formulation.isSome → b.insights.isSome) ∧
  (b.code.isSome → b.formulation.isSome) ∧
  (b.solution.isSome → b.code.isSome)
/-- All four stage fields are non-null. -/
def allStagesSome (b : StageBundle) : Prop :=
  b.insights.isSome ∧ b.formulation.isSome ∧ b.code.isSome ∧ b.solution.isSome
/-- A nested taxonomy mapping with exactly one populated branch: a chain of
single-entry category maps ending in a list of leaf names (test
constructor, not from the source). -/
def mkChain : List Str → List Str → TaxoVal
  | [], names => .leaves names
  | k :: ks, names => .node [(k, mkChain ks names)]
/-- The Unicode tokens rewritten by the first eight substitutions of
`toLatex`. -/
def unicodeMathChars : Str := ['≤', '≥', '∑', '∀', '∈', 'ℝ', 'ℤ', '×']
/-- Does the bracket-index pattern `([A-Za-z]+)\[([^\]]+)\]` match anywhere
in `t`? -/
def containsSingleIdx : Str → Bool
  | [] => false
  | c :: rest => (matchSingleIdx (c :: rest)).isSome || containsSingleIdx rest
/-- Does the double bracket-index pattern match anywhere in `t`? -/
def containsDoubleIdx : Str → Bool
  | [] => false
  | c :: rest => (matchDoubleIdx (c :: rest)).isSome || containsDoubleIdx rest
/-- Does `\s\*\s` match anywhere in `t`? -/
def containsSpacedStar : Str → Bool
  | a :: b :: c :: rest =>
    (isSpaceJS a && b = '*' && isSpaceJS c) || containsSpacedStar (b :: c :: rest)
  | _ => false
/-- The scenario line of the spec (§8). -/
def scenarioLine : Str :=
  "minimize x_1 + x_2 subject to x_1 + x_2 ≤ 10".toList
/-- What the rewriter actually produces on `scenarioLine`: the Unicode
substitution pads `\le` with one space on each side, and the original
spaces around `≤` are kept, so `\le` ends up doubly spaced. -/
def scenarioLineRewritten : Str :=
  "minimize x_1 + x_2 subject to x_1 + x_2  \\le  10".toList
/-- Concrete stage responses whose formulation request fails with HTTP 500
after a successful, nonempty insights stage. -/
def c2Responses : StageResponses :=
  { insightsResp := .ok [⟨"Formulation".toList, .str "General > Leaf".toList,
      "why".toList, "when".toList, "ex".toList⟩]
    formulationResp := .error (.httpError 500)
    codeResp := .ok []
    solutionResp := .ok (.text []) }

/-- Does `matchEnv kw` succeed at some position of `t`?  (Used to reason
about `countEnvTokens`: when no position matches, the count is zero.) -/
def containsEnv (kw : Str) : Str → Bool
  | [] => false
  | c :: rest => (matchEnv kw (c :: rest)).isSome || containsEnv kw rest

/-! ## Verification theorems -/

theorem dropWhile_length_le (p : Char → Bool) (l : Str) :
    (l.dropWhile p).length ≤ l.length := by
  induction l with
  | nil => simp
  | cons c rest ih =>
    rw [List.dropWhile]
    cases hp : p c with
    | true => simpa using Nat.le_succ_of_le ih
    | false => simp

theorem takeWhile1_length {p : Char → Bool} {t a r : Str}
    (h : takeWhile1 p t = some (a, r)) : r.length < t.length := by
  match t with
  | [] => simp [takeWhile1] at h
  | c :: rest =>
    simp only [takeWhile1] at h
    by_cases hc : p c
    · simp only [hc, if_pos, Option.some.injEq, Prod.mk.injEq] at h
      have hle := dropWhile_length_le p rest
      simp only [← h.2, List.length_cons]
      omega
    · simp [hc] at h

theorem matchSingleIdx_length {t name idx r : Str}
    (h : matchSingleIdx t = some (name, idx, r)) : r.length < t.length := by
  unfold matchSingleIdx at h
  split at h
  · rename_i nm r2 heq
    split at h
    · rename_i ix r4 heq2
      cases h
      have h1 := takeWhile1_length heq
      have h2 := takeWhile1_length heq2
      simp only [List.length_cons] at h1 h2
      omega
    · cases h
  · cases h

theorem matchDoubleIdx_length {t name i j r : Str}
    (h : matchDoubleIdx t = some (name, i, j, r)) : r.length < t.length := by
  unfold matchDoubleIdx at h
  split at h
  · rename_i nm ix r2 heq
    split at h
    · rename_i jx r4 heq2
      cases h
      have h1 := matchSingleIdx_length heq
      have h2 := takeWhile1_length heq2
      simp only [List.length_cons] at h1 h2
      omega
    · cases h
  · cases h

theorem splitAtDD_length {t r : Str} (h : splitAtDD t = some r) :
    r.length < t.length := by
  induction t generalizing r with
  | nil => simp [splitAtDD] at h
  | cons a t ih =>
    match t with
    | [] => simp [splitAtDD] at h
    | b :: rest =>
      rw [splitAtDD] at h
      split at h
      · cases h
        simp
        omega
      · have := ih h
        simp at this ⊢
        omega

theorem dropLit_length {pat t r : Str} (h : dropLit pat t = some r) :
    r.length ≤ t.length := by
  induction pat generalizing t with
  | nil => rw [dropLit] at h; cases h; exact Nat.le_refl _
  | cons p ps ih =>
    match t with
    | [] => rw [dropLit] at h; cases h
    | c :: rest =>
      rw [dropLit] at h
      split at h
      · have := ih h
        simp
        omega
      · cases h

theorem matchEnv_length {kw t r : Str} (h : matchEnv kw t = some r) :
    r.length < t.length := by
  unfold matchEnv at h
  split at h
  · cases h
  · rename_i r1 heq
    have h1 := dropLit_length heq
    split at h
    · rename_i a r3 heq2
      cases h
      have h2 := takeWhile1_length heq2
      simp at h2
      omega
    · cases h

theorem afterWsHash_length {t r : Str} (h : afterWsHash t = some r) :
    r.length < t.length := by
  induction t generalizing r with
  | nil => simp [afterWsHash] at h
  | cons c rest ih =>
    rw [afterWsHash] at h
    split at h
    · cases h
      simp
    · split at h
      · have := ih h
        simp
        omega
      · cases h

theorem wsThenHash_length {t r : Str} (h : wsThenHash t = some r) :
    r.length + 1 < t.length := by
  match t with
  | [] => rw [wsThenHash] at h; cases h
  | c :: rest =>
    rw [wsThenHash] at h
    split at h
    · have := afterWsHash_length h
      simp
      omega
    · cases h

theorem dropToLineEnd_length (t : Str) : (dropToLineEnd t).length ≤ t.length := by
  induction t with
  | nil => simp [dropToLineEnd]
  | cons c rest ih =>
    rw [dropToLineEnd]
    split
    · simp
    · simp
      omega

theorem dropLast_append_singleton (ms : List Entry) (e : Entry) :
    (ms ++ [e]).dropLast = ms := by
  simp

theorem setLastContent_append (ms : List Entry) (e : Entry) (c : StageBundle) :
    setLastContent (ms ++ [e]) c = ms ++ [.assistant c] := by
  simp [setLastContent]

theorem replaceAllChar_id {c : Char} {rep s : Str} (h : ∀ x ∈ s, x ≠ c) :
    replaceAllChar c rep s = s := by
  induction s with
  | nil => rfl
  | cons x xs ih =>
    rw [replaceAllChar, if_neg (h x (by simp))]
    rw [ih (fun y hy => h y (by simp [hy]))]

theorem replaceSingleIdxF_id : ∀ (fuel : Nat) (t : Str),
    containsSingleIdx t = false → replaceSingleIdxF fuel t = t := by
  intro fuel
  induction fuel with
  | zero =>
    intro t _
    match t with
    | [] => rfl
    | _ :: _ => rfl
  | succ fuel ih =>
    intro t h
    match t with
    | [] => rfl
    | c :: rest =>
      rw [containsSingleIdx] at h
      simp only [Bool.or_eq_false_iff] at h
      obtain ⟨hm, hrest⟩ := h
      cases hmm : matchSingleIdx (c :: rest) with
      | some v =>
        rw [hmm] at hm
        simp at hm
      | none =>
        simp only [replaceSingleIdxF, hmm]
        rw [ih rest hrest]

theorem replaceDoubleIdxF_id : ∀ (fuel : Nat) (t : Str),
    containsDoubleIdx t = false → replaceDoubleIdxF fuel t = t := by
  intro fuel
  induction fuel with
  | zero =>
    intro t _
    match t with
    | [] => rfl
    | _ :: _ => rfl
  | succ fuel ih =>
    intro t h
    match t with
    | [] => rfl
    | c :: rest =>
      rw [containsDoubleIdx] at h
      simp only [Bool.or_eq_false_iff] at h
      obtain ⟨hm, hrest⟩ := h
      cases hmm : matchDoubleIdx (c :: rest) with
      | some v =>
        rw [hmm] at hm
        simp at hm
      | none =>
        simp only [replaceDoubleIdxF, hmm]
        rw [ih rest hrest]

theorem replaceStarSpaced_id : ∀ (t : Str),
    containsSpacedStar t = false → replaceStarSpaced t = t
  | [], _ => rfl
  | [a], _ => rfl
  | [a, b], _ => rfl
  | a :: b :: c :: rest, h => by
    rw [containsSpacedStar] at h
    simp only [Bool.or_eq_false_iff] at h
    rw [replaceStarSpaced, if_neg (by simp [h.1])]
    rw [replaceStarSpaced_id (b :: c :: rest) h.2]

/-- C1: in a pipeline run whose four stage requests all succeed, the
progress callback fires exactly 4 times, each successive payload extends
the previous one (no stage field reverts from non-null to null), every
payload respects the fill order insights → formulation → code → solution,
and the 4th payload has all four stage fields non-null. -/
theorem c1_progress_monotone (ins : List RawInsight) (f : FormContent)
    (c : Str) (s : SolContent) :
    let ps := (callSolverAPI ⟨.ok ins, .ok f, .ok c, .ok s⟩).1
    ps.length = 4 ∧ List.Chain' bundleLE ps ∧ (∀ b ∈ ps, stageOrderOK b) ∧
      ∃ b4, ps.getLast? = some b4 ∧ allStagesSome b4 := by
  refine ⟨rfl, ?_, ?_, ?_⟩
  · simp [callSolverAPI, List.chain'_cons, bundleLE]
  · intro b hb
    simp [callSolverAPI] at hb
    rcases hb with h | h | h | h <;> subst h <;>
      simp [stageOrderOK]
  · refine ⟨_, rfl, ?_⟩
    simp [callSolverAPI, allStagesSome]

/-- C2 (counterexample): with a successful nonempty insights stage and a
formulation stage failing with HTTP 500, the run halts and the assistant
entry is replaced wholesale by the error content — whose `insights` field
is the empty list, not the insights that had already been filled (the only
progress payload carried a different, nonempty insights list). -/
theorem c2_counterexample :
    (runSendMessage ⟨[], [], []⟩ (some "q".toList) none none c2Responses).messages
      = [.user "q".toList, .assistant errorBundle] ∧
    (callSolverAPI c2Responses).1.map (fun b => b.insights) ≠ [errorBundle.insights] := by
  constructor <;> decide

theorem foldl_setLastContent (base : List Entry) (en : Entry)
    (cs : List StageBundle) (c : StageBundle) :
    setLastContent (List.foldl setLastContent (base ++ [en]) cs) c =
      base ++ [.assistant c] := by
  induction cs generalizing en with
  | nil => exact setLastContent_append base en c
  | cons x cs ih =>
    rw [List.foldl_cons, setLastContent_append]
    exact ih (.assistant x)

/-- Whenever the remote pipeline of a send fails — at whichever stage — the
assistant entry's content ends up replaced by the uniform error
placeholder. -/
theorem runSendMessage_api_error (st : ChatState) (mt : Option Str)
    (p : Option Problem) (rec : Option CannedAnswer) (rs : StageResponses)
    (e : StageErr)
    (hne : effectiveText mt st.input ≠ [])
    (hp : usesDefaultAnswer p = false)
    (herr : (callSolverAPI rs).2 = .error e) :
    (runSendMessage st mt p rec rs).messages =
      st.messages ++ [.user (effectiveText mt st.input), .assistant errorBundle] := by
  have hsync : sendMessageSync st mt p =
      ({ messages := st.messages ++ [.user (effectiveText mt st.input),
           .assistant pendingBundle],
         input := [], originalQuestion := effectiveText mt st.input },
       some (.apiRun (effectiveText mt st.input) false)) := by
    rw [sendMessageSync]
    rw [if_neg (by simpa using hne)]
    rw [hp]
    simp
  rw [runSendMessage, hsync]
  rcases hcs : callSolverAPI rs with ⟨progress, res⟩
  rw [hcs] at herr
  replace herr : res = .error e := herr
  subst herr
  show setLastContent
      (List.foldl setLastContent
        (st.messages ++ [.user (effectiveText mt st.input),
          .assistant pendingBundle]) progress) errorBundle = _
  rw [show st.messages ++ [Entry.user (effectiveText mt st.input),
        Entry.assistant pendingBundle] =
      (st.messages ++ [Entry.user (effectiveText mt st.input)]) ++
        [Entry.assistant pendingBundle] from by simp]
  rw [foldl_setLastContent]
  simp

/-- C2 (amended): if any stage fetch of a remote run fails, the run halts
at that stage — the progress callback has fired once per previously
completed stage, the failing stage's error is the run's outcome, and the
responses of the stages after the failing one are never consulted (the
result is independent of them) — and the assistant entry's content is
replaced wholesale by the uniform error placeholder: formulation
`"Error"`, code `""`, solution a structured object with status `"Error"`
and an explanatory message, and insights reset to the empty list
(overwriting whatever was filled). -/
theorem c2_amended_halt_and_error_placeholders (st : ChatState)
    (mt : Option Str) (p : Option Problem) (rec : Option CannedAnswer)
    (rs : StageResponses) (e : StageErr)
    (hne : effectiveText mt st.input ≠ [])
    (hp : usesDefaultAnswer p = false)
    (herr : (callSolverAPI rs).2 = .error e) :
    ((∀ e', rs.insightsResp = .error e' →
        (callSolverAPI rs).1.length = 0 ∧ (callSolverAPI rs).2 = .error e' ∧
        ∀ f' c' s', callSolverAPI ⟨rs.insightsResp, f', c', s'⟩ = callSolverAPI rs) ∧
     (∀ ins e', rs.insightsResp = .ok ins → rs.formulationResp = .error e' →
        (callSolverAPI rs).1.length = 1 ∧ (callSolverAPI rs).2 = .error e' ∧
        ∀ c' s', callSolverAPI ⟨rs.insightsResp, rs.formulationResp, c', s'⟩ =
          callSolverAPI rs) ∧
     (∀ ins f e', rs.insightsResp = .ok ins → rs.formulationResp = .ok f →
        rs.codeResp = .error e' →
        (callSolverAPI rs).1.length = 2 ∧ (callSolverAPI rs).2 = .error e' ∧
        ∀ s', callSolverAPI ⟨rs.insightsResp, rs.formulationResp, rs.codeResp, s'⟩ =
          callSolverAPI rs) ∧
     (∀ ins f c e', rs.insightsResp = .ok ins → rs.formulationResp = .ok f →
        rs.codeResp = .ok c → rs.solutionResp = .error e' →
        (callSolverAPI rs).1.length = 3 ∧ (callSolverAPI rs).2 = .error e')) ∧
    (runSendMessage st mt p rec rs).messages =
      st.messages ++ [.user (effectiveText mt st.input), .assistant errorBundle] := by
  obtain ⟨i, f, c, s⟩ := rs
  refine ⟨⟨?_, ?_, ?_, ?_⟩,
    runSendMessage_api_error st mt p rec ⟨i, f, c, s⟩ e hne hp herr⟩
  · intro e' h1
    replace h1 : i = .error e' := h1
    subst h1
    refine ⟨rfl, rfl, ?_⟩
    intro f' c' s'
    simp [callSolverAPI]
  · intro ins e' h1 h2
    replace h1 : i = .ok ins := h1
    replace h2 : f = .error e' := h2
    subst h1 h2
    refine ⟨rfl, rfl, ?_⟩
    intro c' s'
    simp [callSolverAPI]
  · intro ins f' e' h1 h2 h3
    replace h1 : i = .ok ins := h1
    replace h2 : f = .ok f' := h2
    replace h3 : c = .error e' := h3
    subst h1 h2 h3
    refine ⟨rfl, rfl, ?_⟩
    intro s'
    simp [callSolverAPI]
  · intro ins f' c' e' h1 h2 h3 h4
    replace h1 : i = .ok ins := h1
    replace h2 : f = .ok f' := h2
    replace h3 : c = .ok c' := h3
    replace h4 : s = .error e' := h4
    subst h1 h2 h3 h4
    exact ⟨rfl, rfl⟩

/-- C2 witness: a formulation failure with HTTP 500 halts the run after
one progress payload, independently of the never-consulted code/solution
responses, and leaves the uniform error content in the assistant entry. -/
theorem c2_amended_witness :
    (callSolverAPI c2Responses).1.length = 1 ∧
    (callSolverAPI c2Responses).2 = .error (.httpError 500) ∧
    (runSendMessage ⟨[], [], []⟩ (some "q".toList) none none c2Responses).messages =
      ([] : List Entry) ++ [.user "q".toList, .assistant errorBundle] := by
  have h := c2_amended_halt_and_error_placeholders ⟨[], [], []⟩
      (some "q".toList) none none c2Responses
      (.httpError 500) (by decide) (by decide) rfl
  have h2 := h.1.2.1 _ _ rfl rfl
  exact ⟨h2.1, h2.2.1, h.2⟩

/-- C3: normalizing a single-branch nested taxonomy mapping rooted at a
synthetic root key yields the accumulated path segments followed by the
leaf names, with the root excluded, joined by `" > "`; in particular the
spec's example mapping yields
`"General Formulation > Variable Definition > Continuous vs. Discrete Confusion"`. -/
theorem c3_taxonomy_single_branch :
    (∀ (root : Str) (ks names : List Str),
      transformTaxonomy (.obj [(root, mkChain ks names)]) =
        joinSegs (ks ++ names)) ∧
    transformTaxonomy (.obj [("Modeling Insight Taxonomy".toList,
        mkChain ["General Formulation".toList, "Variable Definition".toList]
          ["Continuous vs. Discrete Confusion".toList])]) =
      "General Formulation > Variable Definition > Continuous vs. Discrete Confusion".toList := by
  have key : ∀ (ks names path : List Str) (k : Str),
      flattenTaxonomy [(k, mkChain ks names)] path =
        joinSegs ((path ++ k :: (ks ++ names)).drop 1) := by
    intro ks
    induction ks with
    | nil =>
      intro names path k
      simp [mkChain, flattenTaxonomy]
    | cons k1 ks ih =>
      intro names path k
      rw [mkChain, flattenTaxonomy, ih]
      simp
  constructor
  · intro root ks names
    rw [transformTaxonomy, key]
    simp
  · rw [transformTaxonomy, key]
    rfl

/-- C4 (divergence witness): the line `"hello"` contains no token of the
claimed fixed set (no operator, no aggregation/quantifier symbol, no
keyword, no bracket-index pattern), yet `isMathyLine` classifies it mathy:
the trailing `|` of the regex literal leaves an empty alternative that
matches every string, and the `\\b` escapes match a literal backslash
rather than a word boundary.  A second no-token line confirms it is not
specific to `"hello"`. -/
theorem c4_no_token_line_is_mathy :
    isMathyLine "hello".toList = true ∧
    isMathyLine "a line with no math tokens at all".toList = true := by
  constructor <;> decide

/-- C5 (counterexample): on the scenario line the rewriter does not produce
the claimed string `"minimize x_1 + x_2 subject to x_1 + x_2 \le 10"`: the
substitution pads `\le` with spaces, giving two spaces on each side. -/
theorem c5_counterexample :
    toLatex scenarioLine ≠
      "minimize x_1 + x_2 subject to x_1 + x_2 \\le 10".toList := by
  decide

/-- C5 (amended): the scenario line is classified mathy (`≤` is in the
regex's character class), rewritten to
`"minimize x_1 + x_2 subject to x_1 + x_2  \le  10"` (with the padded
spaces), and the rendered line is the body wrapped in the display-math
delimiter pair `\[ … \]`, with no trailing comment. -/
theorem c5_amended_scenario :
    isMathyLine scenarioLine = true ∧
    toLatex scenarioLine = scenarioLineRewritten ∧
    renderLine scenarioLine =
      .math ("\\[ ".toList ++ scenarioLineRewritten ++ " \\]".toList) [] := by
  refine ⟨by decide, by decide, ?_⟩
  decide

/-- C7 (counterexample): the token rewriter is not idempotent on every
input: for `t = "a[b[c]]"` one pass yields `"a_{b[c}]"`, whose leftover
bracket is picked up again by a second pass, yielding `"a_{b_{c}}"`. -/
theorem c7_counterexample :
    toLatex (toLatex "a[b[c]]".toList) ≠ toLatex "a[b[c]]".toList := by
  decide

/-- C7 (amended): the rewrite is the identity on text already in target
syntax — no Unicode math symbol, no bracket-index pattern, no
whitespace-isolated asterisk (e.g. text already containing `\le`) — but
`rewrite ∘ rewrite = rewrite` fails in general (see the counterexample). -/
theorem c7_amended_id_on_target_syntax (s : Str)
    (h1 : ∀ x ∈ s, x ∉ unicodeMathChars)
    (h2 : containsDoubleIdx s = false)
    (h3 : containsSingleIdx s = false)
    (h4 : containsSpacedStar s = false) :
    toLatex s = s := by
  have hrep : ∀ c ∈ unicodeMathChars, ∀ rep, replaceAllChar c rep s = s := by
    intro c hc rep
    exact replaceAllChar_id (fun x hx hxc => h1 x hx (hxc ▸ hc))
  match s with
  | [] => rfl
  | x :: xs =>
    rw [toLatex]
    rw [if_neg (by simp)]
    simp only
    rw [hrep '≤' (by simp [unicodeMathChars]) _,
        hrep '≥' (by simp [unicodeMathChars]) _,
        hrep '∑' (by simp [unicodeMathChars]) _,
        hrep '∀' (by simp [unicodeMathChars]) _,
        hrep '∈' (by simp [unicodeMathChars]) _,
        hrep 'ℝ' (by simp [unicodeMathChars]) _,
        hrep 'ℤ' (by simp [unicodeMathChars]) _,
        hrep '×' (by simp [unicodeMathChars]) _]
    rw [show replaceDoubleIdx (x :: xs) = x :: xs from
          replaceDoubleIdxF_id _ _ h2,
        show replaceSingleIdx (x :: xs) = x :: xs from
          replaceSingleIdxF_id _ _ h3,
        replaceStarSpaced_id _ h4]

/-- C7 witness: text already containing `\le` (and no Unicode math tokens,
bracket indices, or isolated asterisks) is unchanged by the rewrite. -/
theorem c7_amended_witness :
    toLatex "x \\le y".toList = "x \\le y".toList :=
  c7_amended_id_on_target_syntax _ (by decide) (by decide) (by decide) (by decide)

/-- C8 (counterexample): a whitespace-only string passed as the argument is
truthy, so `handleSendMessage(" ")` is not a no-op: it appends a user entry
and a pending assistant entry and starts a run with the untrimmed text. -/
theorem c8_counterexample :
    (sendMessageSync ⟨[], [], []⟩ (some [' ']) none).1.messages =
      [.user [' '], .assistant pendingBundle] ∧
    (sendMessageSync ⟨[], [], []⟩ (some [' ']) none).2 =
      some (.apiRun [' '] false) := by
  constructor <;> decide

/-- C8 (amended): submit is a no-op exactly when the effective text — the
argument if truthy, else the trimmed input field — is empty; otherwise it
appends exactly one user entry followed by one pending assistant entry with
all four stage fields null, clears the input, stores the original question,
and starts exactly one run.  (A whitespace-only argument is effective text
and is not a no-op.) -/
theorem c8_amended_submit (st : ChatState) (mt : Option Str)
    (p : Option Problem) :
    (effectiveText mt st.input = [] → sendMessageSync st mt p = (st, none)) ∧
    (effectiveText mt st.input ≠ [] →
      (sendMessageSync st mt p).1.messages =
        st.messages ++ [.user (effectiveText mt st.input),
          .assistant { insights := none, formulation := none, code := none,
                       solution := none, source := none }] ∧
      (sendMessageSync st mt p).1.input = [] ∧
      (sendMessageSync st mt p).1.originalQuestion = effectiveText mt st.input ∧
      (sendMessageSync st mt p).2 =
        some (if usesDefaultAnswer p then .defaultRun 1
              else .apiRun (effectiveText mt st.input) false)) := by
  constructor
  · intro h
    rw [sendMessageSync, if_pos (by simpa using h)]
  · intro h
    rw [sendMessageSync]
    rw [if_neg (by simpa using h)]
    exact ⟨rfl, rfl, rfl, rfl⟩

/-- C8 witness: an all-whitespace input field with no argument is a no-op;
a nonempty argument appends the user entry and the all-null pending entry. -/
theorem c8_amended_submit_witness :
    sendMessageSync ⟨[], "   ".toList, []⟩ none none = (⟨[], "   ".toList, []⟩, none) ∧
    (sendMessageSync ⟨[], [], []⟩ (some "q".toList) none).1.messages =
      [.user "q".toList,
       .assistant { insights := none, formulation := none, code := none,
                    solution := none, source := none }] := by
  refine ⟨(c8_amended_submit ⟨[], "   ".toList, []⟩ none none).1 (by decide), ?_⟩
  have h := ((c8_amended_submit ⟨[], [], []⟩ (some "q".toList) none).2 (by decide)).1
  simpa using h

/-- C9: when the last conversation entry is an assistant entry, regenerate
removes exactly that entry, appends exactly one fresh pending assistant
entry (all stage fields null) before the run starts, leaves every other
entry and the rest of the state unchanged, and starts the run with the
stored original question — independent of the input field's contents. -/
theorem c9_regenerate (st : ChatState) (p : Option Problem)
    (ms : List Entry) (c : StageBundle)
    (h : st.messages = ms ++ [.assistant c])
    (hp : usesDefaultAnswer p = false) :
    (regenerateSync st p).1.messages = ms ++ [.assistant pendingBundle] ∧
    (regenerateSync st p).1.input = st.input ∧
    (regenerateSync st p).1.originalQuestion = st.originalQuestion ∧
    (regenerateSync st p).2 = .apiRun st.originalQuestion true ∧
    (∀ i' : Str, (regenerateSync { st with input := i' } p).2 =
      .apiRun st.originalQuestion true) := by
  refine ⟨?_, rfl, rfl, ?_, ?_⟩
  · simp [regenerateSync, h]
  · simp [regenerateSync, hp]
  · intro i'
    simp [regenerateSync, hp]

/-- C9 witness at a concrete two-entry conversation. -/
theorem c9_regenerate_witness :
    (regenerateSync ⟨[.user "q".toList, .assistant errorBundle],
        "ignored input".toList, "q".toList⟩ none).1.messages =
      [.user "q".toList, .assistant pendingBundle] ∧
    (regenerateSync ⟨[.user "q".toList, .assistant errorBundle],
        "ignored input".toList, "q".toList⟩ none).2 =
      .apiRun "q".toList true := by
  have h := c9_regenerate
    ⟨[.user "q".toList, .assistant errorBundle], "ignored input".toList, "q".toList⟩
    none [.user "q".toList] errorBundle (by decide) (by decide)
  exact ⟨h.1, h.2.2.2.1⟩

/-- C10: the sanitization pipeline (gate + rewriting) runs only for the
`'default'` (canned playback) source: for every other source — including
the remote `'api'` source and the absent source of pending/error contents —
a string formulation and all structured-formulation fields are rendered as
raw text, with no fallback check, no rewriting and no wrapping. -/
theorem c10_non_default_source_renders_raw (src : Option Str)
    (f o v : Str) (cs : List Str)
    (h : ¬ src = some defaultSourceTag) (hf : f ≠ []) :
    renderFormulation src (some (.text f)) = .rawString f ∧
    renderFormulation src (some (.structured o cs v)) =
      .structuredView (.raw o) (cs.map FieldView.raw) (.raw v) := by
  constructor
  · rw [renderFormulation]
    rw [if_neg (by simpa using hf)]
    rw [if_pos (by simpa using h)]
  · rw [renderFormulation]
    have hfield : ∀ x : Str, renderField src x = .raw x := by
      intro x
      rw [renderField, if_pos (by simpa using h)]
    rw [hfield, hfield]
    congr 1
    exact List.map_congr_left (fun x _ => hfield x)

/-- C10 witness: with the remote `'api'` source, mathy and even unbalanced
formulation text is rendered raw and unchanged. -/
theorem c10_witness :
    renderFormulation (some apiSourceTag) (some (.text "\\[ x ≤ 1".toList)) =
      .rawString "\\[ x ≤ 1".toList ∧
    renderFormulation (some apiSourceTag)
        (some (.structured "max x".toList ["x ≤ 1".toList] "x".toList)) =
      .structuredView (.raw "max x".toList) ([.raw "x ≤ 1".toList])
        (.raw "x".toList) := by
  have h := c10_non_default_source_renders_raw (some apiSourceTag)
    "\\[ x ≤ 1".toList "max x".toList "x".toList ["x ≤ 1".toList]
    (by decide) (by decide)
  exact ⟨h.1, h.2⟩

theorem countSeq2_pair_eq (a b : Char) (rest : Str) :
    countSeq2 a b (a :: b :: rest) = countSeq2 a b rest + 1 := by
  simp [countSeq2]

theorem countSeq2_pair_ne2 {y b : Char} (h : y ≠ b) (a x : Char) (rest : Str) :
    countSeq2 a b (x :: y :: rest) = countSeq2 a b (y :: rest) := by
  simp [countSeq2, h]

theorem countSeq2_cons_ne {x a : Char} (h : x ≠ a) (b : Char) (rest : Str) :
    countSeq2 a b (x :: rest) = countSeq2 a b rest := by
  match rest with
  | [] => simp [countSeq2]
  | y :: r => simp [countSeq2, h]

theorem countSeq2_clean_zero {a : Char} {t : Str} (h : ∀ c ∈ t, c ≠ a)
    (b : Char) : countSeq2 a b t = 0 := by
  induction t with
  | nil => rfl
  | cons x rest ih =>
    rw [countSeq2_cons_ne (h x (by simp)) b rest]
    exact ih (fun c hc => h c (by simp [hc]))

theorem countSeq2_clean_append {a : Char} {t : Str} (h : ∀ c ∈ t, c ≠ a)
    (b : Char) (r : Str) : countSeq2 a b (t ++ r) = countSeq2 a b r := by
  induction t with
  | nil => rfl
  | cons x rest ih =>
    rw [List.cons_append, countSeq2_cons_ne (h x (by simp)) b (rest ++ r)]
    exact ih (fun c hc => h c (by simp [hc]))

theorem countSinglesAux_clean {t : Str} (h : ∀ c ∈ t, c ≠ '$') :
    ∀ p, countSinglesAux p t = 0 := by
  induction t with
  | nil => intro p; rfl
  | cons c rest ih =>
    intro p
    rw [countSinglesAux, if_neg (by simp [h c (by simp)])]
    simpa using ih (fun c hc => h c (by simp [hc])) (some c)

theorem removeDDSpansF_clean : ∀ (fuel : Nat) {t : Str},
    (∀ c ∈ t, c ≠ '$') → removeDDSpansF fuel t = t := by
  intro fuel
  induction fuel with
  | zero =>
    intro t _
    match t with
    | [] => rfl
    | _ :: _ => rfl
  | succ fuel ih =>
    intro t h
    match t with
    | [] => rfl
    | [c] => rfl
    | a :: b :: rest =>
      rw [removeDDSpansF, if_neg (by simp [h a (by simp)])]
      rw [ih (fun c hc => h c (by simp [hc]))]

theorem removeDDSpans_clean {t : Str} (h : ∀ c ∈ t, c ≠ '$') :
    removeDDSpans t = t :=
  removeDDSpansF_clean t.length h

theorem splitAtDD_clean_append {t : Str} (h : ∀ c ∈ t, c ≠ '$') (r : Str) :
    splitAtDD (t ++ '$' :: '$' :: r) = some r := by
  induction t with
  | nil => simp [splitAtDD]
  | cons x t ih =>
    have hx : x ≠ '$' := h x (by simp)
    have ht : ∀ c ∈ t, c ≠ '$' := fun c hc => h c (by simp [hc])
    match t with
    | [] => simp [splitAtDD, hx]
    | y :: t' =>
      rw [List.cons_append, List.cons_append]
      simp only [splitAtDD]
      rw [if_neg (by simp [hx])]
      rw [← List.cons_append]
      exact ih ht

theorem removeDDSpansF_dd_wrap : ∀ (fuel : Nat) {s : Str},
    (∀ c ∈ s, c ≠ '$') →
    removeDDSpansF (fuel + 1) ('$' :: '$' :: (s ++ ['$', '$'])) = [] := by
  intro fuel s h
  rw [show ('$' :: '$' :: (s ++ ['$', '$'])) =
        '$' :: '$' :: (s ++ '$' :: '$' :: ([] : Str)) from rfl]
  rw [removeDDSpansF, if_pos (by simp), splitAtDD_clean_append h]
  match fuel with
  | 0 => rfl
  | _ + 1 => rfl

theorem matchEnv_head_ne {k c : Char} (h : c ≠ k) (kw' t : Str) :
    matchEnv (k :: kw') (c :: t) = none := by
  simp [matchEnv, dropLit, h]

theorem matchEnv_second_ne {k2 x : Char} (h : x ≠ k2) (k1 : Char)
    (kw' t : Str) : matchEnv (k1 :: k2 :: kw') (k1 :: x :: t) = none := by
  simp [matchEnv, dropLit, h]

theorem containsEnv_cons_none {kw : Str} {c : Char} {rest : Str}
    (h : matchEnv kw (c :: rest) = none) :
    containsEnv kw (c :: rest) = containsEnv kw rest := by
  simp [containsEnv, h]

theorem containsEnv_clean_append {kw' t r : Str}
    (ht : ∀ c ∈ t, c ≠ '\\') (hr : containsEnv ('\\' :: kw') r = false) :
    containsEnv ('\\' :: kw') (t ++ r) = false := by
  induction t with
  | nil => simpa using hr
  | cons x t ih =>
    rw [List.cons_append,
      containsEnv_cons_none (matchEnv_head_ne (ht x (by simp)) _ _)]
    exact ih (fun c hc => ht c (by simp [hc]))

theorem countEnvTokensF_zero {kw : Str} : ∀ (fuel : Nat) {t : Str},
    containsEnv kw t = false → countEnvTokensF fuel kw t = 0 := by
  intro fuel
  induction fuel with
  | zero =>
    intro t _
    match t with
    | [] => rfl
    | _ :: _ => rfl
  | succ fuel ih =>
    intro t h
    match t with
    | [] => rfl
    | c :: rest =>
      rw [containsEnv] at h
      simp only [Bool.or_eq_false_iff] at h
      obtain ⟨hm, hrest⟩ := h
      cases hmm : matchEnv kw (c :: rest) with
      | some v =>
        rw [hmm] at hm
        simp at hm
      | none =>
        simp only [countEnvTokensF, hmm]
        exact ih hrest

theorem countEnvTokens_zero {kw t : Str} (h : containsEnv kw t = false) :
    countEnvTokens kw t = 0 :=
  countEnvTokensF_zero t.length h

theorem containsEnv_clean_zero {kw' t : Str} (h : ∀ c ∈ t, c ≠ '\\') :
    containsEnv ('\\' :: kw') t = false := by
  have := @containsEnv_clean_append kw' t [] h rfl
  simpa using this

/-- C6: for any body free of `$` and `\`, text consisting of a complete
`\[ … \]` span or a balanced `$$…$$` span passes the safety gate
(reported balanced), and removing the closing delimiter flips the verdict
to unbalanced; in particular `"\[ " ++ body` (unmatched opening delimiter)
is judged unbalanced and — even from the sanitizing `'default'` source —
is rendered verbatim, unchanged, as plain text, never rewritten. -/
theorem c6_safety_gate (s : Str) (h : ∀ c ∈ s, c ≠ '$' ∧ c ≠ '\\') :
    hasUnbalancedDelimiters ("\\[ ".toList ++ s ++ " \\]".toList) = false ∧
    hasUnbalancedDelimiters ("\\[ ".toList ++ s) = true ∧
    hasUnbalancedDelimiters ("$$".toList ++ s ++ "$$".toList) = false ∧
    hasUnbalancedDelimiters ("$$".toList ++ s) = true ∧
    renderFormulation (some defaultSourceTag)
        (some (.text ("\\[ ".toList ++ s))) =
      .rawString ("\\[ ".toList ++ s) := by
  have hsD : ∀ c ∈ s, c ≠ '$' := fun c hc => (h c hc).1
  have hsB : ∀ c ∈ s, c ≠ '\\' := fun c hc => (h c hc).2
  -- Part A: the complete bracket span is balanced.
  have partA : hasUnbalancedDelimiters
      ('\\' :: '[' :: ' ' :: (s ++ ([' ', '\\', ']'] : Str))) = false := by
    have hall : ∀ c ∈ ('\\' :: '[' :: ' ' :: (s ++ ([' ', '\\', ']'] : Str))),
        c ≠ '$' := by
      intro c hc
      rcases List.mem_cons.mp hc with rfl | hc
      · decide
      rcases List.mem_cons.mp hc with rfl | hc
      · decide
      rcases List.mem_cons.mp hc with rfl | hc
      · decide
      rcases List.mem_append.mp hc with hc | hc
      · exact hsD c hc
      · rcases List.mem_cons.mp hc with rfl | hc
        · decide
        rcases List.mem_cons.mp hc with rfl | hc
        · decide
        rcases List.mem_cons.mp hc with rfl | hc
        · decide
        · exact absurd hc (List.not_mem_nil c)
    have hdd : countDollarDollar
        ('\\' :: '[' :: ' ' :: (s ++ ([' ', '\\', ']'] : Str))) = 0 :=
      countSeq2_clean_zero hall '$'
    have hrm : removeDDSpans
        ('\\' :: '[' :: ' ' :: (s ++ ([' ', '\\', ']'] : Str))) =
        ('\\' :: '[' :: ' ' :: (s ++ ([' ', '\\', ']'] : Str))) :=
      removeDDSpans_clean hall
    have hsg : countSinglesAux none
        ('\\' :: '[' :: ' ' :: (s ++ ([' ', '\\', ']'] : Str))) = 0 :=
      countSinglesAux_clean hall none
    have hlb : countSeq2 '\\' '['
        ('\\' :: '[' :: ' ' :: (s ++ ([' ', '\\', ']'] : Str))) = 1 := by
      rw [countSeq2_pair_eq, countSeq2_cons_ne (by decide),
        countSeq2_clean_append hsB]
      decide
    have hrb : countSeq2 '\\' ']'
        ('\\' :: '[' :: ' ' :: (s ++ ([' ', '\\', ']'] : Str))) = 1 := by
      rw [countSeq2_pair_ne2 (by decide), countSeq2_cons_ne (by decide),
        countSeq2_cons_ne (by decide), countSeq2_clean_append hsB]
      decide
    have hlp : countSeq2 '\\' '('
        ('\\' :: '[' :: ' ' :: (s ++ ([' ', '\\', ']'] : Str))) = 0 := by
      rw [countSeq2_pair_ne2 (by decide), countSeq2_cons_ne (by decide),
        countSeq2_cons_ne (by decide), countSeq2_clean_append hsB]
      decide
    have hrp : countSeq2 '\\' ')'
        ('\\' :: '[' :: ' ' :: (s ++ ([' ', '\\', ']'] : Str))) = 0 := by
      rw [countSeq2_pair_ne2 (by decide), countSeq2_cons_ne (by decide),
        countSeq2_cons_ne (by decide), countSeq2_clean_append hsB]
      decide
    have hbe : countEnvTokens beginKw
        ('\\' :: '[' :: ' ' :: (s ++ ([' ', '\\', ']'] : Str))) = 0 := by
      refine countEnvTokens_zero ?_
      simp only [beginKw]
      rw [containsEnv_cons_none (matchEnv_second_ne (by decide) _ _ _),
        containsEnv_cons_none (matchEnv_head_ne (by decide) _ _),
        containsEnv_cons_none (matchEnv_head_ne (by decide) _ _)]
      exact containsEnv_clean_append hsB (by decide)
    have hen : countEnvTokens endKw
        ('\\' :: '[' :: ' ' :: (s ++ ([' ', '\\', ']'] : Str))) = 0 := by
      refine countEnvTokens_zero ?_
      simp only [endKw]
      rw [containsEnv_cons_none (matchEnv_second_ne (by decide) _ _ _),
        containsEnv_cons_none (matchEnv_head_ne (by decide) _ _),
        containsEnv_cons_none (matchEnv_head_ne (by decide) _ _)]
      exact containsEnv_clean_append hsB (by decide)
    simp [hasUnbalancedDelimiters, countDollarDollar] at hdd ⊢
    simp [hdd, hrm, hsg, hlb, hrb, hlp, hrp, hbe, hen, countSingles]
  -- Part B: dropping the closing `\]` makes it unbalanced.
  have partB : hasUnbalancedDelimiters ('\\' :: '[' :: ' ' :: s) = true := by
    have hall : ∀ c ∈ ('\\' :: '[' :: ' ' :: s), c ≠ '$' := by
      intro c hc
      rcases List.mem_cons.mp hc with rfl | hc
      · decide
      rcases List.mem_cons.mp hc with rfl | hc
      · decide
      rcases List.mem_cons.mp hc with rfl | hc
      · decide
      · exact hsD c hc
    have hdd : countDollarDollar ('\\' :: '[' :: ' ' :: s) = 0 :=
      countSeq2_clean_zero hall '$'
    have hrm : removeDDSpans ('\\' :: '[' :: ' ' :: s) =
        ('\\' :: '[' :: ' ' :: s) := removeDDSpans_clean hall
    have hsg : countSinglesAux none ('\\' :: '[' :: ' ' :: s) = 0 :=
      countSinglesAux_clean hall none
    have hlb : countSeq2 '\\' '[' ('\\' :: '[' :: ' ' :: s) = 1 := by
      rw [countSeq2_pair_eq, countSeq2_cons_ne (by decide),
        countSeq2_clean_zero hsB]
    have hrb : countSeq2 '\\' ']' ('\\' :: '[' :: ' ' :: s) = 0 := by
      rw [countSeq2_pair_ne2 (by decide), countSeq2_cons_ne (by decide),
        countSeq2_cons_ne (by decide)]
      exact countSeq2_clean_zero hsB ']'
    simp [hasUnbalancedDelimiters, countDollarDollar] at hdd ⊢
    simp [hdd, hrm, hsg, hlb, hrb, countSingles]
  -- Part C: the balanced `$$ … $$` span.
  have partC : hasUnbalancedDelimiters
      ('$' :: '$' :: (s ++ (['$', '$'] : Str))) = false := by
    have hallB : ∀ c ∈ ('$' :: '$' :: (s ++ (['$', '$'] : Str))),
        c ≠ '\\' := by
      intro c hc
      rcases List.mem_cons.mp hc with rfl | hc
      · decide
      rcases List.mem_cons.mp hc with rfl | hc
      · decide
      rcases List.mem_append.mp hc with hc | hc
      · exact hsB c hc
      · rcases List.mem_cons.mp hc with rfl | hc
        · decide
        rcases List.mem_cons.mp hc with rfl | hc
        · decide
        · exact absurd hc (List.not_mem_nil c)
    have hdd : countDollarDollar ('$' :: '$' :: (s ++ (['$', '$'] : Str))) = 2 := by
      rw [countDollarDollar, countSeq2_pair_eq, countSeq2_clean_append hsD]
      decide
    have hrm : removeDDSpans ('$' :: '$' :: (s ++ (['$', '$'] : Str))) = [] := by
      show removeDDSpansF ('$' :: '$' :: (s ++ (['$', '$'] : Str))).length
        ('$' :: '$' :: (s ++ (['$', '$'] : Str))) = []
      have hl : ('$' :: '$' :: (s ++ (['$', '$'] : Str))).length =
          (s.length + 3) + 1 := by
        simp
      rw [hl]
      exact removeDDSpansF_dd_wrap _ hsD
    have hlb : ∀ b : Char,
        countSeq2 '\\' b ('$' :: '$' :: (s ++ (['$', '$'] : Str))) = 0 :=
      fun b => countSeq2_clean_zero hallB b
    have hbe : countEnvTokens beginKw
        ('$' :: '$' :: (s ++ (['$', '$'] : Str))) = 0 := by
      refine countEnvTokens_zero ?_
      simp only [beginKw]
      exact containsEnv_clean_zero hallB
    have hen : countEnvTokens endKw
        ('$' :: '$' :: (s ++ (['$', '$'] : Str))) = 0 := by
      refine countEnvTokens_zero ?_
      simp only [endKw]
      exact containsEnv_clean_zero hallB
    simp [hasUnbalancedDelimiters, hdd, hrm, hlb, hbe, hen, countSingles,
      countSinglesAux]
  -- Part D: dropping the closing `$$` makes it unbalanced.
  have partD : hasUnbalancedDelimiters ('$' :: '$' :: s) = true := by
    have hdd : countDollarDollar ('$' :: '$' :: s) = 1 := by
      rw [countDollarDollar, countSeq2_pair_eq, countSeq2_clean_zero hsD]
    simp [hasUnbalancedDelimiters, hdd]
  -- Part E: the unbalanced text is rendered verbatim even by the
  -- `'default'` source.
  have partE : renderFormulation (some defaultSourceTag)
      (some (.text ('\\' :: '[' :: ' ' :: s))) =
      .rawString ('\\' :: '[' :: ' ' :: s) := by
    simp [renderFormulation, shouldFallbackToPlain, partB]
  exact ⟨partA, partB, partC, partD, partE⟩

/-- C6 witness at the body `"x + y"`: `"\[ x + y \]"` and `"$$x + y$$"`
are balanced, `"\[ x + y"` and `"$$x + y"` are unbalanced, and
`"\[ x + y"` is rendered verbatim as plain text. -/
theorem c6_safety_gate_witness :
    hasUnbalancedDelimiters ("\\[ ".toList ++ "x + y".toList ++ " \\]".toList) = false ∧
    hasUnbalancedDelimiters ("\\[ ".toList ++ "x + y".toList) = true ∧
    hasUnbalancedDelimiters ("$$".toList ++ "x + y".toList ++ "$$".toList) = false ∧
    hasUnbalancedDelimiters ("$$".toList ++ "x + y".toList) = true ∧
    renderFormulation (some defaultSourceTag)
        (some (.text ("\\[ ".toList ++ "x + y".toList))) =
      .rawString ("\\[ ".toList ++ "x + y".toList) :=
  c6_safety_gate "x + y".toList (by decide)
